import Mathlib

/-!
Verification of the interaction core of the Kando pie menu.

This file gives a shallow embedding of the input-state machine of
`src/renderer/menu/input-tracker.ts`, of the menu-item data model and
`deepCopyMenuItem` from the common type declarations, and of the menu
selector and menu layout resolver described in the specification (the
implementations of the latter two are not among the provided sources,
so they are modelled from the specification, as marked in their doc
comments).  Screen coordinates are embedded as rational numbers.

The source compares the Euclidean distance between two points with the
constant drag threshold of 5 pixels.  Since both sides of that
comparison are non-negative, it is equivalent to comparing the squared
distance with the squared threshold, and the squared distance is an
exact rational; the embedding therefore stores and compares squared
lengths throughout.  The tracker also caches the angle of the relative
position (`_angle`, an atan2-based transcendental function of
`_relativePosition` that is set in `update` together with
`_relativePosition` and written nowhere else); the embedding treats the
stored angle as the derived view of `relativePosition`, so invariance
of `relativePosition` entails invariance of the stored angle.
-/

/-- A 2D vector with rational coordinates, mirroring `IVec2`. -/
structure Vec2 where
  x : ℚ
  y : ℚ
deriving DecidableEq, Repr

/-- Modelled from the spec: the geometry utilities (`src/renderer/math`)
are not among the provided sources; §4.1 specifies
relative position = position − activeItemPosition. -/
def subtractVec (a b : Vec2) : Vec2 := ⟨a.x - b.x, a.y - b.y⟩

/-- Modelled from the spec: squared Euclidean length of a vector
(§4.1: distance = vector length; squared to stay rational). -/
def lengthSq (v : Vec2) : ℚ := v.x * v.x + v.y * v.y

/-- Modelled from the spec: squared Euclidean distance between two
points (`math.getDistance` squared). -/
def distSq (a b : Vec2) : ℚ := lengthSq (subtractVec a b)

/-- The drag threshold in pixels (`DRAG_THRESHOLD = 5`). -/
def DRAG_THRESHOLD : ℚ := 5

/-- The logical state of the input device (`InputState`). -/
inductive InputState where
  | eReleased
  | eClicked
  | eDragging
deriving DecidableEq, Repr

/-- A pointer event: either a `MouseEvent` (with a `buttons` bitmask) or
a `TouchEvent` (whose first touch point supplies the coordinates).  Both
carry the four modifier-key flags read by the tracker. -/
inductive PointerEvent where
  | mouse (clientX clientY : ℚ) (buttons : ℕ)
      (ctrlKey metaKey shiftKey altKey : Bool)
  | touch (clientX clientY : ℚ)
      (ctrlKey metaKey shiftKey altKey : Bool)
deriving DecidableEq, Repr

/-- The position carried by the event (for a touch event, of the first
touch point). -/
def PointerEvent.position : PointerEvent → Vec2
  | .mouse x y _ _ _ _ _ => ⟨x, y⟩
  | .touch x y _ _ _ _ => ⟨x, y⟩

/-- Embeds `event.ctrlKey || event.metaKey || event.shiftKey || event.altKey`. -/
def PointerEvent.anyModifier : PointerEvent → Bool
  | .mouse _ _ _ c m s a => c || m || s || a
  | .touch _ _ c m s a => c || m || s || a

/-- True exactly when the event is a `MouseEvent` with `buttons === 0`
(the guard of the release branch of `onMotionEvent`). -/
def PointerEvent.mouseNoButtons : PointerEvent → Bool
  | .mouse _ _ buttons _ _ _ _ => buttons == 0
  | .touch _ _ _ _ _ _ => false

/-- The modifier flags of a `KeyboardEvent`, as read by `onKeyUpEvent`. -/
structure KeyboardModifiers where
  ctrlKey : Bool
  metaKey : Bool
  shiftKey : Bool
  altKey : Bool
deriving DecidableEq, Repr

/-- Embeds `event.ctrlKey || event.metaKey || event.shiftKey || event.altKey`
of `onKeyUpEvent`. -/
def KeyboardModifiers.anyModifier (k : KeyboardModifiers) : Bool :=
  k.ctrlKey || k.metaKey || k.shiftKey || k.altKey

/-- The mutable state of `InputTracker`.  `distanceSq` embeds the stored
`_distance` (squared, see the module comment); the stored `_angle` is
the derived view of `relativePosition` and is not duplicated here. -/
structure InputTracker where
  state : InputState
  absolutePosition : Vec2
  relativePosition : Vec2
  distanceSq : ℚ
  deferredTurboMode : Bool
  clickPosition : Vec2
  ignoreMotionEvents : ℕ
  turboMode : Bool
deriving DecidableEq, Repr

/-- The field defaults of `InputTracker`. -/
def initialTracker : InputTracker where
  state := .eReleased
  absolutePosition := ⟨0, 0⟩
  relativePosition := ⟨0, 0⟩
  distanceSq := 0
  deferredTurboMode := false
  clickPosition := ⟨0, 0⟩
  ignoreMotionEvents := 0
  turboMode := false

/-- A `pointer-motion` emission: the absolute position and the
"is dragging" boolean. -/
abbrev Emission := Vec2 × Bool

/-- Embeds `InputTracker.update`: store the absolute position and the position,
(squared) distance and angle relative to the active item.  When the
active-item position is absent the item is assumed to be at the mouse
position. -/
def update (s : InputTracker) (position : Vec2)
    (activeItemPosition : Option Vec2) : InputTracker :=
  let aip := activeItemPosition.getD position
  let rel := subtractVec position aip
  { s with
    absolutePosition := position
    relativePosition := rel
    distanceSq := lengthSq rel }

/-- The body of `onMotionEvent` after the ignore-counter guard: update
the snapshot, apply the drag threshold, the turbo-mode OR-update, the
turbo/release state adjustment, and emit `pointer-motion`. -/
def processMotion (s : InputTracker) (event : PointerEvent)
    (activeItemPosition : Vec2) : InputTracker × Option Emission :=
  let s1 := update s event.position (some activeItemPosition)
  let s2 :=
    if s1.state = InputState.eClicked ∧
        distSq s1.absolutePosition s1.clickPosition >
          DRAG_THRESHOLD * DRAG_THRESHOLD then
      { s1 with state := InputState.eDragging }
    else s1
  let s3 :=
    if ¬s2.deferredTurboMode then
      { s2 with turboMode := s2.turboMode || event.anyModifier }
    else s2
  let s4 :=
    if s3.turboMode then
      { s3 with state := InputState.eDragging }
    else if s3.state = InputState.eDragging ∧ event.mouseNoButtons then
      { s3 with state := InputState.eReleased }
    else s3
  (s4, some (s4.absolutePosition, s4.state = InputState.eDragging))

/-- Embeds `InputTracker.onMotionEvent`: if the ignore counter is positive,
decrement it and discard the event; otherwise process the event and emit
the `pointer-motion` notification. -/
def onMotionEvent (s : InputTracker) (event : PointerEvent)
    (activeItemPosition : Vec2) : InputTracker × Option Emission :=
  if s.ignoreMotionEvents > 0 then
    ({ s with ignoreMotionEvents := s.ignoreMotionEvents - 1 }, none)
  else
    processMotion s event activeItemPosition

/-- Embeds `InputTracker.onPointerDownEvent`: record the click position, set the
state to `eClicked`, then run the motion logic on the same event. -/
def onPointerDownEvent (s : InputTracker) (event : PointerEvent)
    (activeItemPosition : Vec2) : InputTracker × Option Emission :=
  onMotionEvent
    { s with clickPosition := event.position, state := InputState.eClicked }
    event activeItemPosition

/-- Embeds `InputTracker.onPointerUpEvent`: unconditionally set the state to
`eReleased`.  The source method emits nothing, embedded as `none`. -/
def onPointerUpEvent (s : InputTracker) : InputTracker × Option Emission :=
  ({ s with state := InputState.eReleased }, none)

/-- Embeds `InputTracker.onKeyDownEvent`: activate turbo mode unless it is
deferred. -/
def onKeyDownEvent (s : InputTracker) : InputTracker :=
  if ¬s.deferredTurboMode then { s with turboMode := true } else s

/-- Embeds `InputTracker.onKeyUpEvent`: if no modifier is still pressed, clear
both the deferred-turbo flag and turbo mode. -/
def onKeyUpEvent (s : InputTracker) (event : KeyboardModifiers) :
    InputTracker :=
  if ¬event.anyModifier then
    { s with deferredTurboMode := false, turboMode := false }
  else s

/-- The `deferredTurboMode` setter: store the value and reset
`turboMode` to `false`. -/
def setDeferredTurboMode (s : InputTracker) (val : Bool) : InputTracker :=
  { s with deferredTurboMode := val, turboMode := false }

/-- Embeds `InputTracker.ignoreNextMotionEvents`: arm the ignore counter to 2. -/
def ignoreNextMotionEvents (s : InputTracker) : InputTracker :=
  { s with ignoreMotionEvents := 2 }

/-- The value of `turboMode` right after the OR-update of
`onMotionEvent` (lines 174–181 of the source): unchanged when turbo
mode is deferred, otherwise OR-ed with the event's modifier flags. -/
def motionTurbo (s : InputTracker) (event : PointerEvent) : Bool :=
  if ¬s.deferredTurboMode then s.turboMode || event.anyModifier
  else s.turboMode

/-- A node of the menu-item tree (`IMenuItem`): a `type` discriminator,
an optional `data` payload (uninterpreted by the core, embedded
as an uninterpreted string), display metadata `name`, `icon` and
`iconTheme`, optional `children` (presence means submenu) and an
optional fixed `angle` in degrees. -/
inductive MenuItem where
  | mk (type : String) (data : Option String)
      (name icon iconTheme : String)
      (children : Option (List MenuItem)) (angle : Option ℚ)

/-- Embeds `deepCopyMenuItem`: field-by-field copy of a menu item, recursing
over the children. -/
def deepCopyMenuItem : MenuItem → MenuItem
  | .mk t d n i th none a => .mk t d n i th none a
  | .mk t d n i th (some cs) a =>
      .mk t d n i th
        (some (cs.attach.map (fun c => deepCopyMenuItem c.1))) a
termination_by item => sizeOf item
decreasing_by
  have h := List.sizeOf_lt_of_mem c.2
  simp only [MenuItem.mk.sizeOf_spec, Option.some.sizeOf_spec]
  omega

/-- The optional screen-area condition (`IMenuConditions.screenArea`):
an axis-aligned rectangle with optionally-unbounded edges. -/
structure ScreenArea where
  xMin : Option ℚ
  xMax : Option ℚ
  yMin : Option ℚ
  yMax : Option ℚ
deriving DecidableEq, Repr

/-- The optional conditions of a menu (`IMenuConditions`). -/
structure MenuConditions where
  windowName : Option String
  appName : Option String
  screenArea : Option ScreenArea
deriving DecidableEq, Repr

/-- A configured menu (`IMenu`): root item, shortcut, shortcut ID,
display flags and optional conditions. -/
structure Menu where
  root : MenuItem
  shortcut : String
  shortcutID : String
  centered : Bool
  anchored : Bool
  conditions : Option MenuConditions

/-- The invocation context of a show-menu request (§4.3): the focused
app name, the focused window name and the cursor position. -/
structure MenuContext where
  appName : String
  windowName : String
  cursor : Vec2
deriving DecidableEq, Repr

/-- Modelled from the spec: the show-menu request kind (§4.3, §6): a
menu is requested either by a trigger (shortcut or shortcut ID) or by
name. -/
inductive MenuRequest where
  | byTrigger (trigger : String)
  | byName (name : String)
deriving DecidableEq, Repr

/-- Whether the first character list is an initial segment of the second. -/
def charsStart : List Char → List Char → Bool
  | [], _ => true
  | _ :: _, [] => false
  | c :: cs, d :: ds => c == d && charsStart cs ds

/-- Whether the first character list occurs contiguously in the second. -/
def charsContains (needle haystack : List Char) : Bool :=
  charsStart needle haystack ||
    match haystack with
    | [] => false
    | _ :: t => charsContains needle t

/-- Case-insensitive substring test: the configured value matches if
the context string contains it case-insensitively (§4.3; the
alternative regular-expression form of a condition value is evaluated
by an external engine and is outside this embedding). -/
def containsCI (haystack needle : String) : Bool :=
  charsContains (needle.data.map Char.toLower) (haystack.data.map Char.toLower)

/-- Cursor-in-rectangle test for `screenArea`: every present edge bounds
the corresponding coordinate; an absent edge is unbounded. -/
def inScreenArea (area : ScreenArea) (cursor : Vec2) : Bool :=
  (area.xMin.all (fun b => b ≤ cursor.x)) &&
  (area.xMax.all (fun b => cursor.x ≤ b)) &&
  (area.yMin.all (fun b => b ≤ cursor.y)) &&
  (area.yMax.all (fun b => cursor.y ≤ b))

/-- The satisfaction value of each condition field that is present:
`none` entries are absent fields. -/
def conditionResults (c : MenuConditions) (ctx : MenuContext) :
    List (Option Bool) :=
  [c.appName.map (fun v => containsCI ctx.appName v),
   c.windowName.map (fun v => containsCI ctx.windowName v),
   c.screenArea.map (fun a => inScreenArea a ctx.cursor)]

/-- Modelled from the spec: the specificity score of a menu's conditions
(§4.3) — `none` when some present field is unsatisfied (the menu is
disqualified), otherwise the count of present (and therefore satisfied)
fields; a menu without conditions scores 0. -/
def menuScore (c : Option MenuConditions) (ctx : MenuContext) : Option ℕ :=
  match c with
  | none => some 0
  | some c =>
    let rs := conditionResults c ctx
    if rs.any (fun r => r == some false) then none
    else some (rs.countP (fun r => r == some true))

/-- The name of a menu item (projection of the `name` field). -/
def MenuItem.itemName : MenuItem → String
  | .mk _ _ n _ _ _ _ => n

/-- Modelled from the spec: trigger matching (§4.3) — a menu is a
candidate only if the request matches its shortcut or shortcut ID (for
a trigger request) or the name of its root item (for a name request). -/
def triggerMatches (m : Menu) (req : MenuRequest) : Bool :=
  match req with
  | .byTrigger t => m.shortcut == t || m.shortcutID == t
  | .byName n => m.root.itemName == n

/-- A menu survives for a request when its trigger matches and no
present condition field is unsatisfied. -/
def isQualified (m : Menu) (req : MenuRequest) (ctx : MenuContext) : Bool :=
  triggerMatches m req && (menuScore m.conditions ctx).isSome

/-- The specificity score of a qualified menu (0 for a disqualified
one; only used on qualified menus). -/
def qualScore (m : Menu) (ctx : MenuContext) : ℕ :=
  (menuScore m.conditions ctx).getD 0

/-- Keep a qualified candidate of score `sa` unless a later candidate
(the second argument) has a strictly higher score. -/
def betterOf (a : Menu) (sa : ℕ) : Option (Menu × ℕ) → Option (Menu × ℕ)
  | none => some (a, sa)
  | some (m', s') => if s' > sa then some (m', s') else some (a, sa)

/-- Modelled from the spec: the core of the menu selector (§4.3) — keep
the qualified candidate with the highest specificity score, an earlier
candidate winning ties. -/
def selectMenuAux (req : MenuRequest) (ctx : MenuContext) :
    List Menu → Option (Menu × ℕ)
  | [] => none
  | m :: rest =>
    if isQualified m req ctx then
      betterOf m (qualScore m ctx) (selectMenuAux req ctx rest)
    else selectMenuAux req ctx rest

/-- Modelled from the spec: the menu selector (§4.3) — among the menus
whose trigger matches the request and whose present condition fields
are all satisfied, return the one with the highest specificity score,
ties broken by earliest declaration order; `none` when no candidate
survives. -/
def selectMenu (menus : List Menu) (req : MenuRequest)
    (ctx : MenuContext) : Option Menu :=
  (selectMenuAux req ctx menus).map Prod.fst

/-- Modelled from the spec: even spacing with no fixed items (§4.2) —
item `i` of `n` receives `i * 360/n` degrees. -/
def evenAngles (n : ℕ) : List ℚ :=
  (List.range n).map (fun i => (i : ℚ) * 360 / (n : ℚ))

/-- Normalize an angle into `[0, 360)`. -/
def normAngle (a : ℚ) : ℚ := a - 360 * ⌊a / 360⌋

/-- Group a rotated sibling list (starting with a fixed item) into
segments: each fixed angle paired with the number of free items that
follow it, in reverse order of occurrence. -/
def toSegmentsRev (l : List (Option ℚ)) : List (ℚ × ℕ) :=
  l.foldl
    (fun acc o =>
      match o, acc with
      | some a, acc => (a, 0) :: acc
      | none, [] => []
      | none, (a, k) :: acc => (a, k + 1) :: acc)
    []

/-- Modelled from the spec: the free items of a gap (§4.2) — the `i`-th
free item of a run of length `k` between fixed angles receives
`fixedStart + (i+1) * gapSize/(k+1)`, normalized into `[0, 360)`. -/
def fillGap (start gap : ℚ) (k : ℕ) : List ℚ :=
  (List.range k).map (fun i => normAngle (start + ((i : ℚ) + 1) * gap / ((k : ℚ) + 1)))

/-- Resolve the segments of a rotated sibling list: each fixed angle is
kept verbatim and its following free run is distributed over the gap to
the next fixed angle (cyclically: the gap after the last fixed angle
ends at the first fixed angle plus 360°). -/
def segmentsToAngles (first : ℚ) : List (ℚ × ℕ) → List ℚ
  | [] => []
  | (a, k) :: rest =>
    let next :=
      match rest with
      | (b, _) :: _ => b
      | [] => first + 360
    (a :: fillGap a (next - a) k) ++ segmentsToAngles first rest

/-- Modelled from the spec: the menu layout resolver (§4.2), whose
implementation is not among the provided sources.  Input: the ordered
sibling list, each item optionally carrying a fixed angle.  Output: a
resolved angle per sibling, in input order.  With no fixed item, the
`n` siblings are spaced evenly starting at 0°; otherwise the list is
rotated to start at the first fixed item, fixed items keep their angle
verbatim, free runs are distributed evenly across the cyclic gaps
between consecutive fixed angles, and the result is rotated back
(fixed angles are assumed mutually distinct and ascending-compatible,
§7). -/
def resolveAngles (siblings : List (Option ℚ)) : List ℚ :=
  if siblings.all (fun o => o.isNone) then
    evenAngles siblings.length
  else
    let k := siblings.findIdx (fun o => o.isSome)
    let rot := siblings.drop k ++ siblings.take k
    let segs := (toSegmentsRev rot).reverse
    let first := (segs.headD (0, 0)).1
    let resRot := segmentsToAngles first segs
    resRot.drop (siblings.length - k) ++ resRot.take (siblings.length - k)

/-- C6: for every tracker state, `onPointerUpEvent` sets the state to
`eReleased` unconditionally, changes no other field (turbo mode,
deferred turbo mode, absolute/relative positions, the stored distance
and angle — both derived from `relativePosition` — click origin and the
ignore-motion counter), and emits no event. -/
theorem C6_pointer_up_frame (s : InputTracker) :
    onPointerUpEvent s =
      ({ s with state := InputState.eReleased }, (none : Option Emission)) :=
  rfl

/-- C9: assigning the `deferredTurboMode` setter stores the assigned
value and always resets `turboMode` to `false`, for both argument
values, whatever the tracker state — in particular it cancels an active
turbo gesture. -/
theorem C9_setter_clears_turbo (s : InputTracker) (v : Bool) :
    (setDeferredTurboMode s v).turboMode = false ∧
    (setDeferredTurboMode s v).deferredTurboMode = v ∧
    setDeferredTurboMode s v =
      { s with deferredTurboMode := v, turboMode := false } :=
  ⟨rfl, rfl, rfl⟩

/-- C4: after `ignoreNextMotionEvents`, exactly the next two calls to
`onMotionEvent` are discarded — each only decrements the ignore counter
and emits nothing — and the third motion event is processed by the
normal motion-handling body. -/
theorem C4_ignore_exactly_two (s : InputTracker) (e1 e2 e3 : PointerEvent)
    (a1 a2 a3 : Vec2) :
    let s0 := ignoreNextMotionEvents s
    let r1 := onMotionEvent s0 e1 a1
    let r2 := onMotionEvent r1.1 e2 a2
    let r3 := onMotionEvent r2.1 e3 a3
    r1 = ({ s with ignoreMotionEvents := 1 }, none) ∧
    r2 = ({ s with ignoreMotionEvents := 0 }, none) ∧
    r3 = processMotion { s with ignoreMotionEvents := 0 } e3 a3 :=
  ⟨rfl, rfl, rfl⟩

/-- C3 counterexample: on a fresh tracker, after
`setDeferredTurboMode(true)` the first `onKeyDown` does NOT set
`turboMode` to true — the deferred flag is still set, so the key-down
is ignored. -/
theorem C3_counterexample :
    (onKeyDownEvent (setDeferredTurboMode initialTracker true)).turboMode
      = false :=
  rfl

/-- C3 amended: after `setDeferredTurboMode(true)`, `onKeyDown` is a
no-op (turbo mode stays false) while the deferred flag is set; an
`onKeyUp` with no modifier still held clears the deferred flag, and
only after that does an `onKeyDown` set `turboMode` to true. -/
theorem C3_amended_deferred_needs_keyup (s : InputTracker) :
    let s1 := setDeferredTurboMode s true
    onKeyDownEvent s1 = s1 ∧
    (onKeyDownEvent s1).turboMode = false ∧
    (let s2 := onKeyUpEvent s1 ⟨false, false, false, false⟩
     s2.deferredTurboMode = false ∧ (onKeyDownEvent s2).turboMode = true) :=
  ⟨rfl, rfl, rfl, rfl⟩

/-- The turbo-mode flag after the motion body is exactly the OR-update
value `motionTurbo`: the later state adjustments touch only `state`. -/
lemma processMotion_turboMode (s : InputTracker) (e : PointerEvent)
    (a : Vec2) : ((processMotion s e a).1).turboMode = motionTurbo s e := by
  simp only [processMotion, update, motionTurbo]
  split_ifs <;> simp_all

/-- A single motion event never clears an active turbo mode. -/
lemma onMotionEvent_turbo_mono (s : InputTracker) (e : PointerEvent)
    (a : Vec2) (h : s.turboMode = true) :
    ((onMotionEvent s e a).1).turboMode = true := by
  rw [onMotionEvent]
  split_ifs with hig
  · exact h
  · rw [processMotion_turboMode, motionTurbo]
    split_ifs <;> simp [h]

/-- A sequence of motion events never clears an active turbo mode. -/
lemma foldl_motion_turbo_mono (evs : List (PointerEvent × Vec2)) :
    ∀ s : InputTracker, s.turboMode = true →
      (evs.foldl (fun t p => (onMotionEvent t p.1 p.2).1) s).turboMode
        = true := by
  induction evs with
  | nil => intro s h; exact h
  | cons p rest ih =>
    intro s h
    exact ih _ (onMotionEvent_turbo_mono s p.1 p.2 h)

/-- C2 counterexample: turbo mode can become false without any
`onKeyUpEvent`: activating turbo via `onKeyDownEvent` and then
assigning the `deferredTurboMode` setter (here with value `false`)
clears `turboMode`, refuting that key-up is the only clearing path. -/
theorem C2_counterexample :
    (onKeyDownEvent initialTracker).turboMode = true ∧
    (setDeferredTurboMode (onKeyDownEvent initialTracker) false).turboMode
      = false :=
  ⟨rfl, rfl⟩

/-- C2 amended: once `turboMode` is true, no sequence of
`onMotionEvent` calls (whatever their modifier flags or button state)
ever clears it, and neither do `onPointerDownEvent`,
`onPointerUpEvent`, `onKeyDownEvent`, or `onKeyUpEvent` with a modifier
still held; it becomes false only via `onKeyUpEvent` with no modifier
still held, or via an assignment of the `deferredTurboMode` setter
(which always resets it). -/
theorem C2_amended_turbo_latch (s : InputTracker) (h : s.turboMode = true) :
    (∀ evs : List (PointerEvent × Vec2),
      (evs.foldl (fun t p => (onMotionEvent t p.1 p.2).1) s).turboMode
        = true) ∧
    (∀ (e : PointerEvent) (a : Vec2),
      ((onPointerDownEvent s e a).1).turboMode = true) ∧
    (onKeyDownEvent s).turboMode = true ∧
    ((onPointerUpEvent s).1).turboMode = true ∧
    (∀ k : KeyboardModifiers, k.anyModifier = true →
      (onKeyUpEvent s k).turboMode = true) ∧
    (∀ k : KeyboardModifiers, k.anyModifier = false →
      (onKeyUpEvent s k).turboMode = false) ∧
    (∀ v : Bool, (setDeferredTurboMode s v).turboMode = false) := by
  refine ⟨fun evs => foldl_motion_turbo_mono evs s h, ?_, ?_, ?_, ?_, ?_, ?_⟩
  · intro e a
    exact onMotionEvent_turbo_mono _ e a h
  · rw [onKeyDownEvent]; split_ifs <;> simp [h]
  · exact h
  · intro k hk; rw [onKeyUpEvent]; simp [hk, h]
  · intro k hk; rw [onKeyUpEvent]; simp [hk]
  · intro v; rfl

/-- C2 witness: a concrete turbo-activated tracker stays in turbo mode
across a motion event with no modifiers and no buttons held. -/
theorem C2_witness :
    (([(PointerEvent.mouse 10 20 0 false false false false,
        (⟨0, 0⟩ : Vec2))].foldl
      (fun t p => (onMotionEvent t p.1 p.2).1)
      (onKeyDownEvent initialTracker)).turboMode = true) :=
  (C2_amended_turbo_latch (onKeyDownEvent initialTracker) rfl).1 _

/-- The motion body stores the event position as the absolute position,
whatever state adjustments follow. -/
lemma processMotion_absolutePosition (s : InputTracker) (e : PointerEvent)
    (a : Vec2) :
    ((processMotion s e a).1).absolutePosition = e.position := by
  simp only [processMotion, update]
  split_ifs <;> rfl

/-- The motion body emits exactly one `pointer-motion` notification,
carrying the resulting absolute position and the "is dragging" flag of
the resulting state. -/
lemma processMotion_emits (s : InputTracker) (e : PointerEvent) (a : Vec2) :
    (processMotion s e a).2 =
      some ((processMotion s e a).1.absolutePosition,
        decide ((processMotion s e a).1.state = InputState.eDragging)) :=
  rfl

/-- Closed form of the state after the motion body: turbo mode forces
`eDragging`; otherwise the drag threshold may promote `eClicked` to
`eDragging`, and a mouse event with no buttons held demotes `eDragging`
to `eReleased`. -/
lemma processMotion_state_eq (s : InputTracker) (e : PointerEvent)
    (a : Vec2) :
    ((processMotion s e a).1).state =
      (if motionTurbo s e then InputState.eDragging
       else if (if s.state = InputState.eClicked ∧
                    DRAG_THRESHOLD * DRAG_THRESHOLD <
                      distSq e.position s.clickPosition
                 then InputState.eDragging else s.state)
                = InputState.eDragging ∧ e.mouseNoButtons
       then InputState.eReleased
       else (if s.state = InputState.eClicked ∧
                 DRAG_THRESHOLD * DRAG_THRESHOLD <
                   distSq e.position s.clickPosition
              then InputState.eDragging else s.state)) := by
  simp only [processMotion, update, motionTurbo]
  split_ifs <;> simp_all

/-- C5: for every accepted (non-ignored) motion event: if turbo mode is
active (its value at the turbo branch, i.e. after the OR-update) the
resulting state is `eDragging` regardless of button state; otherwise a
mouse event with no buttons held demotes a prior `eDragging` state to
`eReleased`; and in all cases exactly one `pointer-motion` notification
is emitted, carrying the stored absolute position (the event position)
and a boolean equal to whether the resulting state is `eDragging`. -/
theorem C5_motion_contract (s : InputTracker) (e : PointerEvent) (a : Vec2)
    (hig : s.ignoreMotionEvents = 0) :
    let r := onMotionEvent s e a
    (motionTurbo s e = true → r.1.state = InputState.eDragging) ∧
    (motionTurbo s e = false → s.state = InputState.eDragging →
      e.mouseNoButtons = true → r.1.state = InputState.eReleased) ∧
    r.1.absolutePosition = e.position ∧
    r.2 = some (r.1.absolutePosition,
      decide (r.1.state = InputState.eDragging)) := by
  have hr : onMotionEvent s e a = processMotion s e a := by
    rw [onMotionEvent, hig]; simp
  dsimp only
  rw [hr]
  refine ⟨?_, ?_, processMotion_absolutePosition s e a,
    processMotion_emits s e a⟩
  · intro ht
    rw [processMotion_state_eq, ht]
    simp
  · intro ht hst hb
    rw [processMotion_state_eq, ht]
    simp [hst, hb]

/-- C5 witness: the motion contract evaluated on a fresh tracker and a
concrete mouse event at (1,2) with one button held. -/
theorem C5_witness :
    initialTracker.ignoreMotionEvents = 0 ∧
    (let r := onMotionEvent initialTracker
        (PointerEvent.mouse 1 2 1 false false false false) ⟨0, 0⟩
     (motionTurbo initialTracker
        (PointerEvent.mouse 1 2 1 false false false false) = true →
        r.1.state = InputState.eDragging) ∧
     (motionTurbo initialTracker
        (PointerEvent.mouse 1 2 1 false false false false) = false →
        initialTracker.state = InputState.eDragging →
        (PointerEvent.mouse 1 2 1 false false false false).mouseNoButtons
          = true →
        r.1.state = InputState.eReleased) ∧
     r.1.absolutePosition =
        (PointerEvent.mouse 1 2 1 false false false false).position ∧
     r.2 = some (r.1.absolutePosition,
        decide (r.1.state = InputState.eDragging))) :=
  ⟨rfl, C5_motion_contract initialTracker
    (PointerEvent.mouse 1 2 1 false false false false) ⟨0, 0⟩ rfl⟩

/-- C1 counterexample: pointer-down at (0,0) with one button held and no
modifiers leaves the state `eClicked`; a following motion event at the
same position (distance 0 ≤ 5 from the click origin) but with the Ctrl
key held transitions the state to `eDragging` — a motion event at or
below the 5 px threshold need not leave the state `eClicked`. -/
theorem C1_counterexample :
    let s0 := (onPointerDownEvent initialTracker
      (PointerEvent.mouse 0 0 1 false false false false) ⟨0, 0⟩).1
    let e := PointerEvent.mouse 0 0 1 true false false false
    s0.state = InputState.eClicked ∧
    distSq e.position s0.clickPosition ≤
      DRAG_THRESHOLD * DRAG_THRESHOLD ∧
    ((onMotionEvent s0 e ⟨0, 0⟩).1).state = InputState.eDragging := by
  with_unfolding_all decide

/-- C1 amended: while the state is `eClicked`, for an accepted motion
event that leaves turbo mode inactive, the resulting state is
`eDragging` exactly when the distance of the event position from the
click origin exceeds 5 px AND the event is not a mouse event reporting
no buttons held (such an event demotes the fresh drag to `eReleased`);
the state stays `eClicked` exactly when that distance is at most
5 px. -/
theorem C1_amended_drag_threshold (s : InputTracker) (e : PointerEvent)
    (a : Vec2) (hig : s.ignoreMotionEvents = 0)
    (hs : s.state = InputState.eClicked)
    (ht : motionTurbo s e = false) :
    let r := onMotionEvent s e a
    (r.1.state = InputState.eDragging ↔
      DRAG_THRESHOLD * DRAG_THRESHOLD < distSq e.position s.clickPosition ∧
      e.mouseNoButtons = false) ∧
    (r.1.state = InputState.eClicked ↔
      distSq e.position s.clickPosition ≤
        DRAG_THRESHOLD * DRAG_THRESHOLD) := by
  have hr : onMotionEvent s e a = processMotion s e a := by
    rw [onMotionEvent, hig]; simp
  dsimp only
  rw [hr, processMotion_state_eq, ht]
  by_cases hd : DRAG_THRESHOLD * DRAG_THRESHOLD <
      distSq e.position s.clickPosition <;>
    by_cases hb : e.mouseNoButtons = true <;>
      simp [hs, hd, hb, not_lt, le_of_lt, not_le]
  · exact le_of_not_lt hd
  · exact le_of_not_lt hd

/-- C1 witness: after pointer-down at (0,0) with one button held, a
motion event to (6,8) (distance 10 from the click origin) with the
button still held and no modifiers is classified by the amended
threshold rule. -/
theorem C1_witness :
    let s0 := (onPointerDownEvent initialTracker
      (PointerEvent.mouse 0 0 1 false false false false) ⟨0, 0⟩).1
    let e := PointerEvent.mouse 6 8 1 false false false false
    s0.ignoreMotionEvents = 0 ∧
    s0.state = InputState.eClicked ∧
    motionTurbo s0 e = false ∧
    (let r := onMotionEvent s0 e ⟨0, 0⟩
     (r.1.state = InputState.eDragging ↔
       DRAG_THRESHOLD * DRAG_THRESHOLD <
         distSq e.position s0.clickPosition ∧
       e.mouseNoButtons = false) ∧
     (r.1.state = InputState.eClicked ↔
       distSq e.position s0.clickPosition ≤
         DRAG_THRESHOLD * DRAG_THRESHOLD)) :=
  ⟨by with_unfolding_all decide, by with_unfolding_all decide,
   by with_unfolding_all decide,
   C1_amended_drag_threshold _ _ _ (by with_unfolding_all decide)
     (by with_unfolding_all decide) (by with_unfolding_all decide)⟩

/-- Lemma: `deepCopyMenuItem` is the identity on every menu-item tree whose
size is bounded, by strong induction on the size bound. -/
lemma deepCopyMenuItem_eq_of_sizeOf_le :
    ∀ (n : ℕ) (item : MenuItem), sizeOf item ≤ n →
      deepCopyMenuItem item = item := by
  intro n
  induction n with
  | zero =>
    intro item h
    exfalso
    cases item with
    | mk t d nm i th ch a =>
      simp only [MenuItem.mk.sizeOf_spec] at h
      omega
  | succ n ih =>
    intro item h
    cases item with
    | mk t d nm i th ch a =>
      cases ch with
      | none => rw [deepCopyMenuItem]
      | some cs =>
        rw [deepCopyMenuItem]
        have hcs : ∀ c ∈ cs, deepCopyMenuItem c = c := by
          intro c hc
          apply ih
          have h1 := List.sizeOf_lt_of_mem hc
          simp only [MenuItem.mk.sizeOf_spec, Option.some.sizeOf_spec] at h
          omega
        have : cs.attach.map (fun c => deepCopyMenuItem c.1) =
            cs.attach.map (fun c => c.1) :=
          List.map_congr_left (fun c _ => hcs c.1 c.2)
        rw [this, List.attach_map_subtype_val]

/-- C10: `deepCopyMenuItem` returns a structurally equal menu item for
every menu-item tree: `type`, `data`, `name`, `icon`, `iconTheme` and
`angle` are copied verbatim and the children are copied recursively, so
the copy is the identity up to structural equality. -/
theorem C10_deepCopy_identity (item : MenuItem) :
    deepCopyMenuItem item = item :=
  deepCopyMenuItem_eq_of_sizeOf_le (sizeOf item) item le_rfl

/-- C8: for every sibling list with no fixed angle, the layout resolver
assigns item `i` (0-indexed, in input order) the angle `i * 360/n`; a
single free item resolves to 0° (top); and re-running the resolver on
the same input yields identical output (it is a pure function). -/
theorem C8_even_layout (items : List (Option ℚ))
    (h : items.all (fun o => o.isNone) = true) :
    resolveAngles items =
      (List.range items.length).map
        (fun i => (i : ℚ) * 360 / (items.length : ℚ)) ∧
    resolveAngles [none] = [0] ∧
    resolveAngles items = resolveAngles items := by
  refine ⟨?_, ?_, rfl⟩
  · rw [resolveAngles, if_pos h]
    rfl
  · show resolveAngles [none] = [0]
    norm_num [resolveAngles, evenAngles, List.range_succ]

/-- C8 witness: four free siblings resolve to 0°, 90°, 180°, 270°. -/
theorem C8_witness :
    (([none, none, none, none] : List (Option ℚ)).all
      (fun o => o.isNone) = true) ∧
    (resolveAngles ([none, none, none, none] : List (Option ℚ)) =
        (List.range ([none, none, none, none] :
            List (Option ℚ)).length).map
          (fun i => (i : ℚ) * 360 /
            ((([none, none, none, none] : List (Option ℚ)).length : ℕ) :
              ℚ)) ∧
      resolveAngles [none] = [0] ∧
      resolveAngles ([none, none, none, none] : List (Option ℚ)) =
        resolveAngles ([none, none, none, none] : List (Option ℚ))) :=
  ⟨rfl, C8_even_layout ([none, none, none, none] : List (Option ℚ)) rfl⟩


/-- If the selector core returns nothing, no menu in the list is
qualified. -/
lemma selectMenuAux_complete (req : MenuRequest) (ctx : MenuContext) :
    ∀ l : List Menu, selectMenuAux req ctx l = none →
      ∀ m ∈ l, isQualified m req ctx = false := by
  intro l
  induction l with
  | nil => intro _ m hm; cases hm
  | cons a rest ih =>
    intro hnone m hm
    rw [selectMenuAux] at hnone
    by_cases hq : isQualified a req ctx = true
    · exfalso
      rw [if_pos hq] at hnone
      cases hr : selectMenuAux req ctx rest with
      | none => rw [hr, betterOf] at hnone; cases hnone
      | some p =>
        obtain ⟨m', s'⟩ := p
        rw [hr, betterOf] at hnone
        by_cases hgt : s' > qualScore a ctx
        · rw [if_pos hgt] at hnone; cases hnone
        · rw [if_neg hgt] at hnone; cases hnone
    · rw [if_neg hq] at hnone
      rcases List.mem_cons.mp hm with rfl | h'
      · exact Bool.not_eq_true _ ▸ hq
      · exact ih hnone m h'

/-- Characterization of the selector core: a returned pair is a
qualified menu together with its score, every qualified menu strictly
before it in the list scores strictly less, and no qualified menu in
the list scores more. -/
lemma selectMenuAux_sound (req : MenuRequest) (ctx : MenuContext) :
    ∀ (l : List Menu) (m : Menu) (s : ℕ),
      selectMenuAux req ctx l = some (m, s) →
      s = qualScore m ctx ∧ isQualified m req ctx = true ∧
      ∃ l1 l2, l = l1 ++ m :: l2 ∧
        (∀ m' ∈ l1, isQualified m' req ctx = true →
          qualScore m' ctx < s) ∧
        (∀ m' ∈ l, isQualified m' req ctx = true →
          qualScore m' ctx ≤ s) := by
  intro l
  induction l with
  | nil => intro m s h; cases h
  | cons a rest ih =>
    intro m s h
    rw [selectMenuAux] at h
    by_cases hq : isQualified a req ctx = true
    · rw [if_pos hq] at h
      cases hr : selectMenuAux req ctx rest with
      | none =>
        rw [hr, betterOf] at h
        obtain ⟨rfl, rfl⟩ := Prod.mk.injEq .. ▸ Option.some.inj h
        refine ⟨rfl, hq, [], rest, rfl, by simp, ?_⟩
        intro m' hm' hq'
        rcases List.mem_cons.mp hm' with rfl | h'
        · exact le_rfl
        · exact absurd hq'
            (by simp [selectMenuAux_complete req ctx rest hr m' h'])
      | some p =>
        obtain ⟨m', s'⟩ := p
        rw [hr, betterOf] at h
        obtain ⟨hs', hq', l1, l2, heq, hlt, hle⟩ := ih m' s' hr
        by_cases hgt : s' > qualScore a ctx
        · rw [if_pos hgt] at h
          obtain ⟨rfl, rfl⟩ := Prod.mk.injEq .. ▸ Option.some.inj h
          refine ⟨hs', hq', a :: l1, l2, by rw [heq]; rfl, ?_, ?_⟩
          · intro m'' hm'' hq''
            rcases List.mem_cons.mp hm'' with rfl | h''
            · exact hgt
            · exact hlt m'' h'' hq''
          · intro m'' hm'' hq''
            rcases List.mem_cons.mp hm'' with rfl | h''
            · exact le_of_lt hgt
            · exact hle m'' h'' hq''
        · rw [if_neg hgt] at h
          obtain ⟨rfl, rfl⟩ := Prod.mk.injEq .. ▸ Option.some.inj h
          refine ⟨rfl, hq, [], rest, rfl, by simp, ?_⟩
          intro m'' hm'' hq''
          rcases List.mem_cons.mp hm'' with rfl | h''
          · exact le_rfl
          · exact le_trans (hle m'' h'' hq'') (not_lt.mp hgt)
    · rw [if_neg hq] at h
      obtain ⟨hs, hqual, l1, l2, heq, hlt, hle⟩ := ih m s h
      refine ⟨hs, hqual, a :: l1, l2, by rw [heq]; rfl, ?_, ?_⟩
      · intro m' hm' hq'
        rcases List.mem_cons.mp hm' with rfl | h'
        · exact absurd hq' hq
        · exact hlt m' h' hq'
      · intro m' hm' hq'
        rcases List.mem_cons.mp hm' with rfl | h'
        · exact absurd hq' hq
        · exact hle m' h' hq'

/-- C7: whenever some candidate survives (its trigger matches and every
present condition field is satisfied), the selector returns a menu; and
a returned menu is itself a surviving candidate, every surviving
candidate declared strictly before it in the configured list has a
strictly smaller specificity score (so equal scores are won by the
earliest declaration), and no surviving candidate anywhere in the list
has a larger score.  A menu with a present but unsatisfied condition
field is never returned, since a returned menu is qualified. -/
theorem C7_selector_spec (menus : List Menu) (req : MenuRequest)
    (ctx : MenuContext) :
    ((∃ m ∈ menus, isQualified m req ctx = true) →
      (selectMenu menus req ctx).isSome = true) ∧
    (∀ m : Menu, selectMenu menus req ctx = some m →
      isQualified m req ctx = true ∧
      ∃ l1 l2, menus = l1 ++ m :: l2 ∧
        (∀ m' ∈ l1, isQualified m' req ctx = true →
          qualScore m' ctx < qualScore m ctx) ∧
        (∀ m' ∈ menus, isQualified m' req ctx = true →
          qualScore m' ctx ≤ qualScore m ctx)) := by
  constructor
  · rintro ⟨m, hm, hq⟩
    rw [selectMenu]
    cases hr : selectMenuAux req ctx menus with
    | none =>
      exact absurd hq
        (by simp [selectMenuAux_complete req ctx menus hr m hm])
    | some p => rfl
  · intro m hsel
    rw [selectMenu] at hsel
    cases hr : selectMenuAux req ctx menus with
    | none => rw [hr] at hsel; cases hsel
    | some p =>
      obtain ⟨m0, s0⟩ := p
      rw [hr] at hsel
      simp only [Option.map_some', Option.some.injEq] at hsel
      obtain rfl := hsel
      obtain ⟨hs, hq, l1, l2, heq, hlt, hle⟩ :=
        selectMenuAux_sound req ctx menus m0 s0 hr
      subst hs
      exact ⟨hq, l1, l2, heq, hlt, hle⟩

/-- A minimal submenu item used in the selector witness scenario. -/
def itemNamed (nm : String) : MenuItem :=
  MenuItem.mk "submenu" none nm "icon" "material-symbols-rounded" none none

/-- Witness menu with two satisfied condition fields (specificity 2). -/
def menuHighSpec : Menu where
  root := itemNamed "high"
  shortcut := "Control+Space"
  shortcutID := "high-id"
  centered := false
  anchored := false
  conditions := some
    { windowName := some "fox", appName := some "fire", screenArea := none }

/-- Witness menu with one satisfied condition field (specificity 1),
declared earlier in the configured list. -/
def menuLowSpec : Menu where
  root := itemNamed "low"
  shortcut := "Control+Space"
  shortcutID := "low-id"
  centered := false
  anchored := false
  conditions := some
    { windowName := none, appName := some "fire", screenArea := none }

/-- Witness invocation context: a Firefox window in focus. -/
def ctxFirefox : MenuContext where
  appName := "Firefox"
  windowName := "foxwindow"
  cursor := ⟨0, 0⟩

/-- C7 witness: with a qualified candidate present, the selector
returns a menu for the concrete two-menu configuration. -/
theorem C7_witness :
    (selectMenu [menuLowSpec, menuHighSpec]
      (MenuRequest.byTrigger "Control+Space") ctxFirefox).isSome = true :=
  (C7_selector_spec [menuLowSpec, menuHighSpec]
      (MenuRequest.byTrigger "Control+Space") ctxFirefox).1
    ⟨menuHighSpec,
      List.mem_cons_of_mem menuLowSpec (List.mem_cons_self menuHighSpec []),
      by with_unfolding_all decide⟩
